import Mathlib

/-!
Shallow embedding of `src/delineate_watershed.py`.

The script builds a NetworkX directed graph from a flow table
(`G.add_nodes_from(flowtable['comid'])`, then
`G.add_edges_from` over the rows whose `tocomid` is not the terminal
sentinel `0`), computes upstream areas with `nx.ancestors`, measures
coverage with `pd.Series(...).isin(...).mean()`, merges catchment
polygons with `union_all`, and writes results with `write_geodatabase`.

Node identifiers (`comid`) are Python ints, modelled as `ℤ`.
Geometries are modelled by an inductive type mirroring the geometry
types the script branches on (`geom_type` strings), with the merged
region of a geometry idealised as a finite set of grid points, so that
`union_all` is exact set union (shapely's exact-arithmetic ideal).
-/

namespace NHD

/-- A NetworkX `DiGraph`: a node set and a set of directed edges.
NetworkX automatically registers edge endpoints as nodes, so the
invariant that every edge endpoint is a node is part of the structure. -/
structure DiGraph where
  nodes : Finset ℤ
  edges : Finset (ℤ × ℤ)
  edges_mem : ∀ e ∈ edges, e.1 ∈ nodes ∧ e.2 ∈ nodes

deriving instance DecidableEq for Except

/-- The error NetworkX raises from `nx.ancestors` when the source is
not in the graph (`NetworkXError: The node ... is not in the digraph`),
called `UnknownNodeError` in the specification. -/
inductive NXError where
  | unknownNode
deriving DecidableEq

/-- The empty `nx.DiGraph()`. -/
def DiGraph.empty : DiGraph :=
  ⟨∅, ∅, by intro e he; simp at he⟩

/-- `G.add_node(n)`. -/
def addNode (g : DiGraph) (n : ℤ) : DiGraph :=
  ⟨insert n g.nodes, g.edges, by
    intro e he
    rcases g.edges_mem e he with ⟨h1, h2⟩
    exact ⟨Finset.mem_insert_of_mem h1, Finset.mem_insert_of_mem h2⟩⟩

/-- `G.add_nodes_from(l)`. -/
def addNodesFrom (g : DiGraph) (l : List ℤ) : DiGraph :=
  l.foldl addNode g

/-- `G.add_edge(u, v)`: inserts the edge and both endpoints. -/
def addEdge (g : DiGraph) (e : ℤ × ℤ) : DiGraph :=
  ⟨insert e.1 (insert e.2 g.nodes), insert e g.edges, by
    intro e' he'
    rcases Finset.mem_insert.mp he' with h | h
    · subst h
      exact ⟨Finset.mem_insert_self _ _,
        Finset.mem_insert_of_mem (Finset.mem_insert_self _ _)⟩
    · rcases g.edges_mem e' h with ⟨h1, h2⟩
      exact ⟨Finset.mem_insert_of_mem (Finset.mem_insert_of_mem h1),
        Finset.mem_insert_of_mem (Finset.mem_insert_of_mem h2)⟩⟩

/-- `G.add_edges_from(l)`. -/
def addEdgesFrom (g : DiGraph) (l : List (ℤ × ℤ)) : DiGraph :=
  l.foldl addEdge g

/-- The edge relation of the graph: `edgeRel g u v` holds when water
flows from `u` directly into `v`. -/
def edgeRel (g : DiGraph) (u v : ℤ) : Prop :=
  (u, v) ∈ g.edges

instance (g : DiGraph) (u v : ℤ) : Decidable (edgeRel g u v) :=
  inferInstanceAs (Decidable ((u, v) ∈ g.edges))

/-- Direct predecessors of any node of `s`: sources of edges whose
target lies in `s`. -/
def predsOf (g : DiGraph) (s : Finset ℤ) : Finset ℤ :=
  (g.edges.filter (fun e => e.2 ∈ s)).image Prod.fst

/-- One round of the reverse traversal of `nx.ancestors`: the visited
set grows by the predecessors of its members. -/
def step (g : DiGraph) (s : Finset ℤ) : Finset ℤ :=
  s ∪ predsOf g s

/-- The visited set of the reverse BFS of `nx.ancestors` after it has
stabilised: iterating the expansion `g.nodes.card` times from
`{source}` reaches the fixed point (the source together with every
node having a path to it). -/
def reachSet (g : DiGraph) (source : ℤ) : Finset ℤ :=
  (step g)^[g.nodes.card] {source}

/-- `nx.ancestors(G, source)`: all nodes having a path to `source`,
excluding `source` itself; raises if `source` is not a node of `G`. -/
def ancestors (g : DiGraph) (source : ℤ) : Except NXError (Finset ℤ) :=
  if source ∈ g.nodes then .ok ((reachSet g source).erase source)
  else .error .unknownNode

/-! ## Geometry model

Shapely geometries are modelled by the constructors the script branches
on through `geom_type`. The planar extent of a geometry is idealised as
a finite set of grid points (`region`), so that the dissolving union of
`union_all` is exact set union. -/

/-- A grid point of the idealised plane. -/
abbrev Pt := ℤ × ℤ

/-- The planar extent of one simple polygon, idealised as the finite
set of grid points it covers. -/
abbrev PolyData := Finset Pt

/-- A shapely geometry, by the `geom_type` cases the script handles. -/
inductive Geometry where
  | point (p : Pt)
  | lineString (ps : List Pt)
  | polygon (d : PolyData)
  | multiPolygon (ds : List PolyData)
deriving DecidableEq

/-- The `geom_type` attribute. The constructors are listed in the
lexicographic order of the corresponding shapely strings
(`"LineString" < "MultiPolygon" < "Point" < "Polygon"`), so that
sorting by `GeomType.rank` matches Python's `list.sort()` on the
strings. -/
inductive GeomType where
  | lineString
  | multiPolygon
  | point
  | polygon
deriving DecidableEq

/-- Position of each `geom_type` string in lexicographic order. -/
def GeomType.rank : GeomType → ℕ
  | .lineString => 0
  | .multiPolygon => 1
  | .point => 2
  | .polygon => 3

/-- `geometry.geom_type`. -/
def geomType : Geometry → GeomType
  | .point _ => .point
  | .lineString _ => .lineString
  | .polygon _ => .polygon
  | .multiPolygon _ => .multiPolygon

/-- The idealised planar extent of a geometry. -/
def region : Geometry → Finset Pt
  | .point p => {p}
  | .lineString ps => ps.toFinset
  | .polygon d => d
  | .multiPolygon ds => ds.foldr (· ∪ ·) ∅

/-- The centroid of the idealised extent: the integer mean of its grid
points (a definite stand-in for shapely's numeric centroid; the claims
never inspect the coordinate values, only that a point results). -/
def centroidPt (g : Geometry) : Pt :=
  let s := region g
  if s.card = 0 then (0, 0)
  else ((s.sum Prod.fst) / s.card, (s.sum Prod.snd) / s.card)

/-- `geometry.centroid`: always a point. -/
def centroid (g : Geometry) : Geometry :=
  .point (centroidPt g)

/-- `geoseries.union_all()`: the dissolved union of the extents; the
empty collection yields the empty geometry. -/
def unionAll (l : List Geometry) : Finset Pt :=
  (l.map region).foldr (· ∪ ·) ∅

/-! ## The script's functions -/

/-- `get_watershed_boundaries(source_comid, G, catchments)`.
`catchments` is the geodataframe as a list of rows `(COMID, geometry)`.
Mirrors the source: `upstream_comids = list(nx.ancestors(G, source_comid))`,
`watershed_comids = [source_comid] + upstream_comids`,
`proportion_matched = pd.Series(watershed_comids).isin(catchments['COMID']).mean()`
(the mean of a boolean series is the match count over the length),
`watershed_polygon = catchments[catchments['COMID'].isin(watershed_comids)]['geometry'].union_all()`.
The list `watershed_comids` has pairwise-distinct members (`ancestors`
is a set not containing the source) and every use of it — the `.isin`
match count, the `.mean()` denominator, and the row filter — is
insensitive to its order, so it is modelled as the finite set
`insert source_comid upstream`; `.isin` tests membership in the
column's set of values. -/
def get_watershed_boundaries (source_comid : ℤ) (g : DiGraph)
    (catchments : List (ℤ × Geometry)) : Except NXError (Finset Pt × ℚ) :=
  match ancestors g source_comid with
  | .error e => .error e
  | .ok up =>
    let watershed_comids : Finset ℤ := insert source_comid up
    let comidCol : Finset ℤ := (catchments.map Prod.fst).toFinset
    let proportion_matched : ℚ :=
      ((watershed_comids.filter (fun c => c ∈ comidCol)).card : ℚ) /
        (watershed_comids.card : ℚ)
    let watershed_polygon : Finset Pt :=
      unionAll ((catchments.filter
        (fun r => decide (r.1 ∈ watershed_comids))).map Prod.snd)
    .ok (watershed_polygon, proportion_matched)

/-- The graph-construction block of the script: `G = nx.DiGraph()`,
`G.add_nodes_from(flowtable['comid'])`, then
`terminal_flows = (flowtable['tocomid'] == 0)` and
`G.add_edges_from` over the rows of `flowtable[~terminal_flows]`.
`flowtable` is the list of rows `(comid, tocomid)`. -/
def buildFlowGraph (flowtable : List (ℤ × ℤ)) : DiGraph :=
  let g := addNodesFrom DiGraph.empty (flowtable.map Prod.fst)
  addEdgesFrom g (flowtable.filter (fun r => decide (r.2 ≠ 0)))

/-- The per-gage loop of the script (`for i in watersheds.index.values`):
each iteration calls `get_watershed_boundaries` with no exception
handling, so the first raised error propagates and aborts the run. -/
def runBatch (g : DiGraph) (catchments : List (ℤ × Geometry)) :
    List ℤ → Except NXError (List (Finset Pt × ℚ))
  | [] => .ok []
  | s :: rest =>
    match get_watershed_boundaries s g catchments with
    | .error e => .error e
    | .ok r =>
      match runBatch g catchments rest with
      | .error e => .error e
      | .ok rs => .ok (r :: rs)

/-- A geodataframe, reduced to the column the claims concern. -/
structure GeoDataFrame where
  geometry : List Geometry
deriving DecidableEq

/-- The messages `write_geodatabase` prints. -/
inductive LogMsg where
  | warnMultipleTypes
  | upcastNote
deriving DecidableEq

/-- `geom_types = list(gdf['geometry'].geom_type.unique()); geom_types.sort()`:
the distinct geometry types, sorted as Python sorts the type strings. -/
def geomTypes (gdf : GeoDataFrame) : List GeomType :=
  ((gdf.geometry.map geomType).dedup).insertionSort
    (fun a b => a.rank ≤ b.rank)

/-- `MultiPolygon([feature]) if feature.geom_type == 'Polygon' else feature`. -/
def upcastOne : Geometry → Geometry
  | .polygon d => .multiPolygon [d]
  | f => f

/-- `write_geodatabase(gdf, filepath, layer_name, polygons_as_points)`.
The geodataframe assignments `gdf['geometry'] = ...` mutate the
caller's frame in place; the model returns the frame's final state
together with the printed messages (`to_file` itself is external I/O). -/
def write_geodatabase (gdf : GeoDataFrame) (filepath : String)
    (layer_name : String) (polygons_as_points : Bool) :
    GeoDataFrame × List LogMsg :=
  let geom_types := geomTypes gdf
  if polygons_as_points then
    if GeomType.polygon ∈ geom_types ∨ GeomType.multiPolygon ∈ geom_types then
      ({ gdf with geometry := gdf.geometry.map centroid }, [])
    else (gdf, [])
  else if geom_types.length > 1 then
    if geom_types = [GeomType.multiPolygon, GeomType.polygon] then
      ({ gdf with geometry := gdf.geometry.map upcastOne },
        [.warnMultipleTypes, .upcastNote])
    else (gdf, [.warnMultipleTypes])
  else (gdf, [])

/-! ## Concrete instances used as witnesses -/

/-- The spec's example network: edges `{(2,1),(3,2),(4,2)}` and one
terminal flow `(5,0)`. -/
def Gtest : DiGraph := buildFlowGraph [(2, 1), (3, 2), (4, 2), (5, 0)]

/-- A network with a self-loop on node 1. -/
def Gloop : DiGraph := buildFlowGraph [(1, 1), (2, 1)]

/-- A two-node cycle. -/
def Gcyc : DiGraph := buildFlowGraph [(1, 2), (2, 1)]

/-- A single edge out of node 1, so node 1 has no predecessors. -/
def Gchain : DiGraph := buildFlowGraph [(1, 2)]

/-- Catchment rows for comids 1, 2, 3 of the example network. -/
def cat3 : List (ℤ × Geometry) :=
  [(1, .polygon {(0, 0)}), (2, .polygon {(1, 0)}), (3, .polygon {(2, 0)})]

/-! ## Reachability lemmas -/

lemma subset_step (g : DiGraph) (s : Finset ℤ) : s ⊆ step g s :=
  Finset.subset_union_left

lemma predsOf_subset_nodes (g : DiGraph) (s : Finset ℤ) :
    predsOf g s ⊆ g.nodes := by
  intro m hm
  rcases Finset.mem_image.mp hm with ⟨e, he, rfl⟩
  exact (g.edges_mem e (Finset.mem_of_mem_filter e he)).1

lemma step_subset_nodes (g : DiGraph) {s : Finset ℤ} (hs : s ⊆ g.nodes) :
    step g s ⊆ g.nodes :=
  Finset.union_subset hs (predsOf_subset_nodes g s)

lemma iterate_subset_nodes (g : DiGraph) {source : ℤ}
    (h : source ∈ g.nodes) (k : ℕ) :
    (step g)^[k] {source} ⊆ g.nodes := by
  induction k with
  | zero => simpa using Finset.singleton_subset_iff.mpr h
  | succ k ih =>
    rw [Function.iterate_succ_apply']
    exact step_subset_nodes g ih

lemma subset_iterate (g : DiGraph) (s : Finset ℤ) (k : ℕ) :
    s ⊆ (step g)^[k] s := by
  induction k with
  | zero => simp
  | succ k ih =>
    rw [Function.iterate_succ_apply']
    exact ih.trans (subset_step g _)

/-- Once an iteration of an inflationary map is fixed it stays fixed. -/
lemma iterate_fix_persists {α : Type} (f : α → α) (s₀ : α) {k : ℕ}
    (hk : f (f^[k] s₀) = f^[k] s₀) :
    ∀ j, k ≤ j → f^[j] s₀ = f^[k] s₀ := by
  intro j hj
  induction j with
  | zero =>
    have hk0 : k = 0 := Nat.le_zero.mp hj
    rw [hk0]
  | succ j ih =>
    rcases Nat.lt_or_ge k (j + 1) with h | h
    · have hkj : k ≤ j := Nat.lt_succ_iff.mp h
      rw [Function.iterate_succ_apply', ih hkj, hk]
    · have : k = j + 1 := Nat.le_antisymm hj h
      rw [this]

/-- An inflationary map on finite sets inside a finite universe reaches
a fixed point after at most `U.card` iterations from a nonempty seed. -/
lemma iterate_card_fixed {α : Type} [DecidableEq α] (f : Finset α → Finset α)
    (hf : ∀ s, s ⊆ f s) (U : Finset α) (s₀ : Finset α)
    (hU : ∀ k : ℕ, f^[k] s₀ ⊆ U) (hne : s₀.Nonempty) :
    f (f^[U.card] s₀) = f^[U.card] s₀ := by
  by_contra hcon
  have hall : ∀ k ≤ U.card, f (f^[k] s₀) ≠ f^[k] s₀ := by
    intro k hk hfix
    have heq := iterate_fix_persists f s₀ hfix U.card hk
    exact hcon (by rw [heq]; exact hfix)
  have hgrow : ∀ n, n ≤ U.card + 1 → s₀.card + n ≤ (f^[n] s₀).card := by
    intro n
    induction n with
    | zero => simp
    | succ n ih =>
      intro hn
      have hssub : f^[n] s₀ ⊂ f^[n + 1] s₀ := by
        rw [Function.iterate_succ_apply']
        refine HasSubset.Subset.ssubset_of_ne (hf _) ?_
        exact fun h => hall n (by omega) h.symm
      have := Finset.card_lt_card hssub
      have := ih (by omega)
      omega
  have h1 : s₀.card + (U.card + 1) ≤ (f^[U.card + 1] s₀).card :=
    hgrow (U.card + 1) (le_refl _)
  have h2 : (f^[U.card + 1] s₀).card ≤ U.card :=
    Finset.card_le_card (hU (U.card + 1))
  have h3 : 1 ≤ s₀.card := Finset.card_pos.mpr hne
  omega

/-- The visited set computed by `reachSet` is a fixed point of the
expansion step. -/
lemma step_reachSet (g : DiGraph) {source : ℤ} (h : source ∈ g.nodes) :
    step g (reachSet g source) = reachSet g source := by
  exact iterate_card_fixed (step g) (subset_step g) g.nodes {source}
    (fun k => iterate_subset_nodes g h k) ⟨source, Finset.mem_singleton_self source⟩

lemma source_mem_reachSet (g : DiGraph) (source : ℤ) :
    source ∈ reachSet g source :=
  subset_iterate g {source} g.nodes.card (Finset.mem_singleton_self source)

/-- Everything in the visited set has a path to the source. -/
lemma reachSet_subset_reach (g : DiGraph) (source : ℤ) :
    ∀ m ∈ reachSet g source, Relation.ReflTransGen (edgeRel g) m source := by
  have : ∀ k, ∀ m ∈ (step g)^[k] ({source} : Finset ℤ),
      Relation.ReflTransGen (edgeRel g) m source := by
    intro k
    induction k with
    | zero =>
      intro m hm
      simp only [Function.iterate_zero_apply, Finset.mem_singleton] at hm
      subst hm
      exact Relation.ReflTransGen.refl
    | succ k ih =>
      intro m hm
      rw [Function.iterate_succ_apply'] at hm
      rcases Finset.mem_union.mp hm with h | h
      · exact ih m h
      · rcases Finset.mem_image.mp h with ⟨e, he, rfl⟩
        rcases Finset.mem_filter.mp he with ⟨hee, ht⟩
        exact Relation.ReflTransGen.head hee (ih e.2 ht)
  exact this g.nodes.card

/-- Every node with a path to the source is in the visited set. -/
lemma reach_subset_reachSet (g : DiGraph) {source : ℤ} (h : source ∈ g.nodes) :
    ∀ m, Relation.ReflTransGen (edgeRel g) m source → m ∈ reachSet g source := by
  intro m hm
  induction hm using Relation.ReflTransGen.head_induction_on with
  | refl => exact source_mem_reachSet g source
  | head hr hpath ih =>
    rename_i u v
    have hp : u ∈ predsOf g (reachSet g source) :=
      Finset.mem_image.mpr ⟨(u, v), Finset.mem_filter.mpr ⟨hr, ih⟩, rfl⟩
    have hstep : u ∈ step g (reachSet g source) :=
      Finset.mem_union_right _ hp
    rwa [step_reachSet g h] at hstep

/-- Characterisation of `reachSet`. -/
lemma mem_reachSet (g : DiGraph) {source : ℤ} (h : source ∈ g.nodes) (m : ℤ) :
    m ∈ reachSet g source ↔ Relation.ReflTransGen (edgeRel g) m source :=
  ⟨fun hm => reachSet_subset_reach g source m hm,
   fun hm => reach_subset_reachSet g h m hm⟩

/-- Characterisation of `nx.ancestors` on a member source: it returns
exactly the nodes other than `source` having a path to `source`. -/
lemma mem_ancestors (g : DiGraph) {source : ℤ} (h : source ∈ g.nodes) (m : ℤ) :
    ancestors g source = .ok ((reachSet g source).erase source) ∧
    (m ∈ (reachSet g source).erase source ↔
      m ≠ source ∧ Relation.ReflTransGen (edgeRel g) m source) := by
  refine ⟨by simp [ancestors, h], ?_⟩
  rw [Finset.mem_erase, mem_reachSet g h]

/-! ## Claims -/

/-- C1: for every graph `G` and id `source`, `ancestors` raises
`UnknownNodeError` iff `source` is not a node of `G`; on a member
source the returned upstream set never contains `source` itself (also
under a self-loop). -/
theorem C1_ancestors_unknown_iff (g : DiGraph) (source : ℤ) :
    (ancestors g source = .error .unknownNode ↔ source ∉ g.nodes) ∧
    (∀ A, ancestors g source = .ok A → source ∉ A) := by
  refine ⟨⟨fun h hmem => ?_, fun h => by rw [ancestors, if_neg h]⟩, fun A hA => ?_⟩
  · rw [ancestors, if_pos hmem] at h
    exact Except.noConfusion h
  · by_cases hs : source ∈ g.nodes
    · rw [ancestors, if_pos hs] at hA
      cases hA
      exact Finset.not_mem_erase source _
    · rw [ancestors, if_neg hs] at hA
      exact Except.noConfusion hA

/-- C1 witness: on the self-loop graph `Gloop`, `ancestors` of the
member node 1 succeeds and excludes 1, and `ancestors` of the absent
node 99 raises. -/
theorem C1_witness :
    ((1 : ℤ), (1 : ℤ)) ∈ Gloop.edges ∧
    ancestors Gloop 1 = .ok ((reachSet Gloop 1).erase 1) ∧
    (1 : ℤ) ∉ (reachSet Gloop 1).erase 1 ∧
    ancestors Gloop 99 = .error .unknownNode :=
  ⟨by decide, by decide,
   (C1_ancestors_unknown_iff Gloop 1).2 _ (by decide),
   (C1_ancestors_unknown_iff Gloop 99).1.mpr (by decide)⟩

/-- C2 counterexample: on the two-node cycle, node 1 is a node from
which 1 is reachable (via the cycle), yet the result of `ancestors`
does not contain it — so "every node from which n is reachable appears
exactly once in the result" fails as stated at `n` itself. -/
theorem C2_counterexample :
    Relation.TransGen (edgeRel Gcyc) 1 1 ∧
    ancestors Gcyc 1 = .ok ((reachSet Gcyc 1).erase 1) ∧
    (1 : ℤ) ∉ (reachSet Gcyc 1).erase 1 :=
  have h12 : edgeRel Gcyc 1 2 := by decide
  have h21 : edgeRel Gcyc 2 1 := by decide
  ⟨Relation.TransGen.head h12 (Relation.TransGen.single h21),
   by decide, by decide⟩

/-- C2 (amended): for every graph with a cycle through a member node
`n`, the ancestors computation terminates (it is total and returns a
result), and every node **other than `n`** from which `n` is reachable
appears exactly once in the result; `n` itself never appears. -/
theorem C2_cycle_ancestors (g : DiGraph) (n : ℤ)
    (hn : n ∈ g.nodes) (hcyc : Relation.TransGen (edgeRel g) n n) :
    ∃ A, ancestors g n = .ok A ∧ n ∉ A ∧
      (∀ m, m ∈ A ↔ m ≠ n ∧ Relation.TransGen (edgeRel g) m n) ∧
      (∀ m ∈ A, A.val.count m = 1) := by
  refine ⟨(reachSet g n).erase n, (mem_ancestors g hn 0).1,
    Finset.not_mem_erase n _, fun m => ?_, fun m hm => ?_⟩
  · rw [(mem_ancestors g hn m).2]
    constructor
    · rintro ⟨hne, hr⟩
      rcases Relation.reflTransGen_iff_eq_or_transGen.mp hr with h | h
      · exact absurd h.symm hne
      · exact ⟨hne, h⟩
    · rintro ⟨hne, ht⟩
      exact ⟨hne, ht.to_reflTransGen⟩
  · exact Multiset.count_eq_one_of_mem ((reachSet g n).erase n).nodup hm

/-- C2 witness: the amended statement instantiated on the two-node
cycle `Gcyc` at node 1. -/
theorem C2_witness :
    (1 : ℤ) ∈ Gcyc.nodes ∧ Relation.TransGen (edgeRel Gcyc) 1 1 ∧
    ∃ A, ancestors Gcyc 1 = .ok A ∧ (1 : ℤ) ∉ A ∧
      (∀ m, m ∈ A ↔ m ≠ 1 ∧ Relation.TransGen (edgeRel Gcyc) m 1) ∧
      (∀ m ∈ A, A.val.count m = 1) :=
  have h12 : edgeRel Gcyc 1 2 := by decide
  have h21 : edgeRel Gcyc 2 1 := by decide
  have ht : Relation.TransGen (edgeRel Gcyc) 1 1 :=
    Relation.TransGen.head h12 (Relation.TransGen.single h21)
  ⟨by decide, ht, C2_cycle_ancestors Gcyc 1 (by decide) ht⟩

/-- C8: for every graph and member node `n` with no incoming edge,
`ancestors` returns the empty set. -/
theorem C8_no_predecessors (g : DiGraph) (n : ℤ)
    (hn : n ∈ g.nodes) (hp : ∀ e ∈ g.edges, e.2 ≠ n) :
    ancestors g n = .ok ∅ := by
  have hpred : predsOf g {n} = ∅ := by
    rw [predsOf]
    have hfil : g.edges.filter (fun e => e.2 ∈ ({n} : Finset ℤ)) = ∅ := by
      rw [Finset.filter_eq_empty_iff]
      intro e he
      simp only [Finset.mem_singleton]
      exact hp e he
    rw [hfil, Finset.image_empty]
  have hfix : step g {n} = {n} := by
    rw [step, hpred, Finset.union_empty]
  have hreach : reachSet g n = {n} := Function.iterate_fixed hfix g.nodes.card
  rw [ancestors, if_pos hn, hreach, Finset.erase_singleton]

/-- C8 witness: in `Gchain` node 1 is a member with no incoming edge
and its ancestor set is empty. -/
theorem C8_witness :
    (1 : ℤ) ∈ Gchain.nodes ∧ (∀ e ∈ Gchain.edges, e.2 ≠ 1) ∧
    ancestors Gchain 1 = .ok ∅ :=
  ⟨by decide, by decide, C8_no_predecessors Gchain 1 (by decide) (by decide)⟩

/-- On a member source, `get_watershed_boundaries` succeeds with the
merged geometry and match ratio spelled out. -/
lemma gwb_eq (g : DiGraph) (cat : List (ℤ × Geometry)) {s : ℤ}
    (h : s ∈ g.nodes) :
    get_watershed_boundaries s g cat = .ok
      (unionAll ((cat.filter
          (fun r => decide (r.1 ∈ insert s ((reachSet g s).erase s)))).map Prod.snd),
       (((insert s ((reachSet g s).erase s)).filter
           (fun c => c ∈ (cat.map Prod.fst).toFinset)).card : ℚ) /
         ((insert s ((reachSet g s).erase s)).card : ℚ)) := by
  unfold get_watershed_boundaries
  rw [(mem_ancestors g h 0).1]

/-- C3: on a member source, the match ratio is `matched / queried` over
`upstream = ancestors(source) ∪ {source}`; it lies in `[0,1]`, the
queried count is at least 1 since the source is included, and it is 1
exactly when every upstream node has a stored geometry. -/
theorem C3_match_ratio (g : DiGraph) (cat : List (ℤ × Geometry)) (s : ℤ)
    (h : s ∈ g.nodes) :
    ∃ A poly r, ancestors g s = .ok A ∧
      get_watershed_boundaries s g cat = .ok (poly, r) ∧
      r = (((insert s A).filter
          (fun c => c ∈ (cat.map Prod.fst).toFinset)).card : ℚ) /
          ((insert s A).card : ℚ) ∧
      1 ≤ (insert s A).card ∧
      0 ≤ r ∧ r ≤ 1 ∧
      (r = 1 ↔ ∀ c ∈ insert s A, c ∈ (cat.map Prod.fst).toFinset) := by
  have hcardpos : 0 < (insert s ((reachSet g s).erase s)).card :=
    Finset.card_pos.mpr ⟨s, Finset.mem_insert_self s _⟩
  have hden : ((insert s ((reachSet g s).erase s)).card : ℚ) ≠ 0 := by
    exact_mod_cast Nat.pos_iff_ne_zero.mp hcardpos
  refine ⟨(reachSet g s).erase s, _, _, (mem_ancestors g h 0).1, gwb_eq g cat h,
    rfl, hcardpos, ?_, ?_, ?_⟩
  · exact div_nonneg (Nat.cast_nonneg _) (Nat.cast_nonneg _)
  · rw [div_le_one (by exact_mod_cast hcardpos)]
    exact_mod_cast Finset.card_filter_le _ _
  · rw [div_eq_one_iff_eq hden, Nat.cast_inj]
    constructor
    · intro hc
      have hfe : (insert s ((reachSet g s).erase s)).filter
          (fun c => c ∈ (cat.map Prod.fst).toFinset) =
          insert s ((reachSet g s).erase s) :=
        Finset.eq_of_subset_of_card_le (Finset.filter_subset _ _) (le_of_eq hc.symm)
      exact fun c hcm => (Finset.filter_eq_self.mp hfe) c hcm
    · intro hall
      rw [Finset.filter_true_of_mem hall]

/-- C3 witness: the spec's example — network `{(2,1),(3,2),(4,2)}`,
geometries stored for `{1,2,3}` only — instantiating the ratio facts
at source 1 (where the ratio is 3/4). -/
theorem C3_witness :
    (1 : ℤ) ∈ Gtest.nodes ∧
    (∃ A poly r, ancestors Gtest 1 = .ok A ∧
      get_watershed_boundaries 1 Gtest cat3 = .ok (poly, r) ∧
      r = (((insert 1 A).filter
          (fun c => c ∈ (cat3.map Prod.fst).toFinset)).card : ℚ) /
          ((insert 1 A).card : ℚ) ∧
      1 ≤ (insert 1 A).card ∧
      0 ≤ r ∧ r ≤ 1 ∧
      (r = 1 ↔ ∀ c ∈ insert 1 A, c ∈ (cat3.map Prod.fst).toFinset)) :=
  ⟨by decide, C3_match_ratio Gtest cat3 1 (by decide)⟩

/-- C7: when no upstream id has a stored geometry, delineation returns
ratio 0 and the empty merged geometry, with no error. -/
theorem C7_no_geometry (g : DiGraph) (cat : List (ℤ × Geometry)) (s : ℤ)
    (h : s ∈ g.nodes)
    (hnone : ∀ c ∈ insert s ((reachSet g s).erase s),
      c ∉ (cat.map Prod.fst).toFinset) :
    get_watershed_boundaries s g cat = .ok (∅, 0) := by
  rw [gwb_eq g cat h]
  have h1 : (insert s ((reachSet g s).erase s)).filter
      (fun c => c ∈ (cat.map Prod.fst).toFinset) = ∅ :=
    Finset.filter_eq_empty_iff.mpr hnone
  have h2 : cat.filter
      (fun r => decide (r.1 ∈ insert s ((reachSet g s).erase s))) = [] := by
    rw [List.filter_eq_nil_iff]
    intro r hr hdec
    exact hnone r.1 (of_decide_eq_true hdec)
      (List.mem_toFinset.mpr (List.mem_map.mpr ⟨r, hr, rfl⟩))
  rw [h1, h2]
  simp [unionAll]

lemma edges_addNodesFrom (g : DiGraph) (l : List ℤ) :
    (addNodesFrom g l).edges = g.edges := by
  induction l generalizing g with
  | nil => rfl
  | cons a t ih => exact ih (addNode g a)

lemma mem_edges_addEdgesFrom (g : DiGraph) (l : List (ℤ × ℤ)) (e : ℤ × ℤ) :
    e ∈ (addEdgesFrom g l).edges ↔ e ∈ g.edges ∨ e ∈ l := by
  induction l generalizing g with
  | nil => simp [addEdgesFrom]
  | cons a t ih =>
    show e ∈ (addEdgesFrom (addEdge g a) t).edges ↔ _
    rw [ih]
    constructor
    · rintro (h | h)
      · rcases Finset.mem_insert.mp h with h | h
        · exact Or.inr (h ▸ List.mem_cons_self a t)
        · exact Or.inl h
      · exact Or.inr (List.mem_cons_of_mem a h)
    · rintro (h | h)
      · exact Or.inl (Finset.mem_insert_of_mem h)
      · rcases List.mem_cons.mp h with h | h
        · exact Or.inl (h ▸ Finset.mem_insert_self a g.edges)
        · exact Or.inr h

/-- The edges of the constructed flow graph are exactly the flow-table
rows whose `tocomid` is not the sentinel 0. -/
lemma mem_edges_buildFlowGraph (ft : List (ℤ × ℤ)) (e : ℤ × ℤ) :
    e ∈ (buildFlowGraph ft).edges ↔ e ∈ ft ∧ e.2 ≠ 0 := by
  unfold buildFlowGraph
  rw [mem_edges_addEdgesFrom, edges_addNodesFrom]
  simp [DiGraph.empty, List.mem_filter]

/-- C4 counterexample: a flow-table row whose upstream id is the
sentinel 0 (and whose downstream id is not) survives the filter, so
edge insertion materializes 0 both as an edge endpoint and as a node —
"the sentinel value is never materialized as a node or as an edge
endpoint by edge insertion" fails as stated. -/
theorem C4_counterexample :
    ((0 : ℤ), (5 : ℤ)) ∈ (buildFlowGraph [((0 : ℤ), (5 : ℤ))]).edges ∧
    (0 : ℤ) ∈ (buildFlowGraph [((0 : ℤ), (5 : ℤ))]).nodes := by
  decide

/-- C4 (amended): construction drops every edge whose downstream id is
the sentinel 0 before the edge set is built — no constructed edge has
downstream endpoint 0 — and all remaining flow-table rows are added
as-is (and nothing else); the sentinel can still appear as an upstream
endpoint when 0 occurs in the `comid` column. -/
theorem C4_sentinel_dropped (ft : List (ℤ × ℤ)) :
    (∀ e ∈ (buildFlowGraph ft).edges, e.2 ≠ 0) ∧
    (∀ r ∈ ft, r.2 ≠ 0 → r ∈ (buildFlowGraph ft).edges) ∧
    (∀ e ∈ (buildFlowGraph ft).edges, e ∈ ft) :=
  ⟨fun e he => ((mem_edges_buildFlowGraph ft e).mp he).2,
   fun r hr hne => (mem_edges_buildFlowGraph ft r).mpr ⟨hr, hne⟩,
   fun e he => ((mem_edges_buildFlowGraph ft e).mp he).1⟩

/-- C4 witness: on the flow table `[(2,1),(5,0)]` the non-terminal row
`(2,1)` becomes an edge and the terminal row `(5,0)` does not. -/
theorem C4_witness :
    ((2 : ℤ), (1 : ℤ)) ∈ (buildFlowGraph [((2 : ℤ), (1 : ℤ)), ((5 : ℤ), (0 : ℤ))]).edges ∧
    ((5 : ℤ), (0 : ℤ)) ∉ (buildFlowGraph [((2 : ℤ), (1 : ℤ)), ((5 : ℤ), (0 : ℤ))]).edges :=
  ⟨(C4_sentinel_dropped _).2.1 (2, 1) (List.mem_cons_self _ _) (by decide),
   fun hmem => (C4_sentinel_dropped [((2 : ℤ), (1 : ℤ)), ((5 : ℤ), (0 : ℤ))]).1
     (5, 0) hmem rfl⟩

lemma gwb_error_of_not_mem (g : DiGraph) (cat : List (ℤ × Geometry))
    {s : ℤ} (h : s ∉ g.nodes) :
    get_watershed_boundaries s g cat = .error .unknownNode := by
  unfold get_watershed_boundaries
  rw [ancestors, if_neg h]

/-- C5 counterexample: the batch loop has no exception handling — with
query list `[99, 1]` over `Gchain`, the absent id 99 aborts the whole
run with `UnknownNodeError`, even though the remaining query 1 would
succeed on its own; no results and no failure tally are produced. -/
theorem C5_counterexample :
    runBatch Gchain cat3 [99, 1] = .error .unknownNode ∧
    (∃ v, get_watershed_boundaries 1 Gchain cat3 = .ok v) :=
  ⟨by decide, ⟨_, rfl⟩⟩

/-- C5 (amended): the batch loop does not isolate per-item failures: if
any query source id is absent from the graph, the whole run fails with
`UnknownNodeError` (remaining query points are not processed and no
tally of failures is surfaced). -/
theorem C5_batch_aborts (g : DiGraph) (cat : List (ℤ × Geometry))
    (sources : List ℤ) (hbad : ∃ s ∈ sources, s ∉ g.nodes) :
    runBatch g cat sources = .error .unknownNode := by
  induction sources with
  | nil =>
    rcases hbad with ⟨s, hs, _⟩
    simp at hs
  | cons a rest ih =>
    by_cases ha : a ∈ g.nodes
    · have hv := gwb_eq g cat ha
      have htail : ∃ s ∈ rest, s ∉ g.nodes := by
        rcases hbad with ⟨s, hs, hsn⟩
        rcases List.mem_cons.mp hs with rfl | hs
        · exact absurd ha hsn
        · exact ⟨s, hs, hsn⟩
      rw [runBatch, hv, ih htail]
    · rw [runBatch, gwb_error_of_not_mem g cat ha]

/-- C5 witness: the amended statement instantiated on `Gchain` with
query list `[99, 1]`. -/
theorem C5_witness :
    (∃ s ∈ ([99, 1] : List ℤ), s ∉ Gchain.nodes) ∧
    runBatch Gchain cat3 [99, 1] = .error .unknownNode :=
  have hbad : ∃ s ∈ ([99, 1] : List ℤ), s ∉ Gchain.nodes :=
    ⟨99, List.mem_cons_self _ _, by decide⟩
  ⟨hbad, C5_batch_aborts Gchain cat3 [99, 1] hbad⟩

/-- C7 witness: on the example network with a catchment table whose
only comid (77) is not upstream of source 1, delineation yields the
empty geometry and ratio 0. -/
theorem C7_witness :
    (1 : ℤ) ∈ Gtest.nodes ∧
    (∀ c ∈ insert 1 ((reachSet Gtest 1).erase 1),
      c ∉ (([((77 : ℤ), Geometry.polygon {(9, 9)})].map Prod.fst).toFinset)) ∧
    get_watershed_boundaries 1 Gtest [((77 : ℤ), Geometry.polygon {(9, 9)})] =
      .ok (∅, 0) :=
  ⟨by decide, by decide,
   C7_no_geometry Gtest [((77 : ℤ), Geometry.polygon {(9, 9)})] 1
     (by decide) (by decide)⟩

lemma mem_geomTypes (gdf : GeoDataFrame) (t : GeomType) :
    t ∈ geomTypes gdf ↔ ∃ f ∈ gdf.geometry, geomType f = t := by
  unfold geomTypes
  rw [List.Perm.mem_iff (List.perm_insertionSort _ _), List.mem_dedup,
    List.mem_map]

lemma map_eq_self_mem {α : Type} (h : α → α) (l : List α)
    (he : l.map h = l) : ∀ x ∈ l, h x = x := by
  induction l with
  | nil => intro x hx; cases hx
  | cons a t ih =>
    rw [List.map_cons, List.cons.injEq] at he
    intro x hx
    rcases List.mem_cons.mp hx with rfl | hx
    · exact he.1
    · exact ih he.2 x hx

lemma eq_polygon_of_geomType {f : Geometry} (h : geomType f = .polygon) :
    ∃ d, f = .polygon d := by
  cases f with
  | polygon d => exact ⟨d, rfl⟩
  | point p => exact absurd h (by simp [geomType])
  | lineString ps => exact absurd h (by simp [geomType])
  | multiPolygon ds => exact absurd h (by simp [geomType])

/-- C6 counterexample: a geodataframe holding a geometry whose type is
neither Polygon nor MultiPolygon (a LineString) is written with no
message and no error of any kind — `write_geodatabase` has no
`GeometryTypeError`; a uniformly non-polygon collection is passed
through silently. -/
theorem C6_counterexample :
    geomType (Geometry.lineString [(0, 0), (1, 1)]) ≠ .polygon ∧
    geomType (Geometry.lineString [(0, 0), (1, 1)]) ≠ .multiPolygon ∧
    write_geodatabase ⟨[Geometry.lineString [(0, 0), (1, 1)]]⟩
        "out.gdb" "watersheds" false =
      (⟨[Geometry.lineString [(0, 0), (1, 1)]]⟩, []) := by
  refine ⟨by decide, by decide, by decide⟩

/-- C6 (amended): with `polygons_as_points` false, `write_geodatabase`
never raises for unexpected geometry types; it prints a warning exactly
when more than one distinct geometry type is present (a homogeneous
non-polygon collection is written silently), it never drops a geometry
(the column's length is preserved), and it never changes the column
except for the polygon-to-multipolygon upcast performed exactly when
the types are `{Polygon, MultiPolygon}`. -/
theorem C6_no_type_error (gdf : GeoDataFrame) (fp ln : String) :
    ((write_geodatabase gdf fp ln false).2 ≠ [] ↔
      2 ≤ (geomTypes gdf).length) ∧
    (write_geodatabase gdf fp ln false).1.geometry.length =
      gdf.geometry.length ∧
    ((write_geodatabase gdf fp ln false).1.geometry = gdf.geometry ∨
      (geomTypes gdf = [.multiPolygon, .polygon] ∧
        (write_geodatabase gdf fp ln false).1.geometry =
          gdf.geometry.map upcastOne)) := by
  unfold write_geodatabase
  by_cases hlen : (geomTypes gdf).length > 1
  · by_cases heq : geomTypes gdf = [.multiPolygon, .polygon]
    · simp only [Bool.false_eq_true, if_false, if_pos hlen, if_pos heq]
      exact ⟨⟨fun _ => by omega, fun _ => by simp⟩,
        by simp, Or.inr ⟨heq, by simp⟩⟩
    · simp only [Bool.false_eq_true, if_false, if_pos hlen, if_neg heq]
      exact ⟨⟨fun _ => by omega, fun _ => by simp⟩, by simp, Or.inl (by simp)⟩
  · simp only [Bool.false_eq_true, if_false, if_neg hlen]
    exact ⟨⟨fun h => absurd rfl h, fun h2 => absurd h2 (by omega)⟩,
      by simp, Or.inl (by simp)⟩

/-- C6 witness: the amended statement instantiated on a frame mixing a
Point and a LineString (warning printed, nothing changed) — evaluated
facts of the instance. -/
theorem C6_witness :
    ((write_geodatabase ⟨[Geometry.point (0, 0), Geometry.lineString [(1, 1)]]⟩
        "out.gdb" "stations" false).2 ≠ [] ↔
      2 ≤ (geomTypes ⟨[Geometry.point (0, 0), Geometry.lineString [(1, 1)]]⟩).length) ∧
    (write_geodatabase ⟨[Geometry.point (0, 0), Geometry.lineString [(1, 1)]]⟩
        "out.gdb" "stations" false).1.geometry.length =
      ([Geometry.point (0, 0), Geometry.lineString [(1, 1)]] : List Geometry).length ∧
    ((write_geodatabase ⟨[Geometry.point (0, 0), Geometry.lineString [(1, 1)]]⟩
        "out.gdb" "stations" false).1.geometry =
        [Geometry.point (0, 0), Geometry.lineString [(1, 1)]] ∨
      (geomTypes ⟨[Geometry.point (0, 0), Geometry.lineString [(1, 1)]]⟩ =
          [.multiPolygon, .polygon] ∧
        (write_geodatabase ⟨[Geometry.point (0, 0), Geometry.lineString [(1, 1)]]⟩
            "out.gdb" "stations" false).1.geometry =
          ([Geometry.point (0, 0), Geometry.lineString [(1, 1)]] : List Geometry).map upcastOne)) :=
  C6_no_type_error ⟨[Geometry.point (0, 0), Geometry.lineString [(1, 1)]]⟩
    "out.gdb" "stations"

/-- C9: the merged geometry is independent of the order of the
geometries fed to `union_all` — permuting the input yields an equal
result (union is commutative and associative). -/
theorem C9_union_all_perm (l₁ l₂ : List Geometry) (hp : l₁.Perm l₂) :
    unionAll l₁ = unionAll l₂ := by
  induction hp with
  | nil => rfl
  | cons x _ ih =>
    simp only [unionAll, List.map_cons, List.foldr_cons] at ih ⊢
    rw [ih]
  | swap x y t =>
    simp only [unionAll, List.map_cons, List.foldr_cons]
    rw [Finset.union_left_comm]
  | trans _ _ ih1 ih2 => exact ih1.trans ih2

/-- C9 witness: swapping two concrete geometries leaves the merged
region unchanged. -/
theorem C9_witness :
    (([Geometry.polygon {(0, 0)}, Geometry.point (3, 3)] : List Geometry).Perm
      [Geometry.point (3, 3), Geometry.polygon {(0, 0)}]) ∧
    unionAll [Geometry.polygon {(0, 0)}, Geometry.point (3, 3)] =
      unionAll [Geometry.point (3, 3), Geometry.polygon {(0, 0)}] :=
  have hp : ([Geometry.polygon {(0, 0)}, Geometry.point (3, 3)] : List Geometry).Perm
      [Geometry.point (3, 3), Geometry.polygon {(0, 0)}] :=
    List.Perm.swap (Geometry.point (3, 3)) (Geometry.polygon {(0, 0)}) []
  ⟨hp, C9_union_all_perm _ _ hp⟩

/-- C10: `write_geodatabase` leaves the caller's frame mutated: with
`polygons_as_points` and any Polygon/MultiPolygon present, the geometry
column ends up replaced by centroids; with types exactly
`{Polygon, MultiPolygon}`, Polygons end up replaced by single-member
MultiPolygons — in both cases the column differs from its input state
(the in-place `gdf['geometry'] = ...` assignments are modelled by the
returned frame state). -/
theorem C10_write_geodatabase_mutates (gdf : GeoDataFrame) (fp ln : String) :
    ((∃ f ∈ gdf.geometry, geomType f = .polygon ∨ geomType f = .multiPolygon) →
      (write_geodatabase gdf fp ln true).1.geometry = gdf.geometry.map centroid ∧
      (write_geodatabase gdf fp ln true).1.geometry ≠ gdf.geometry) ∧
    (geomTypes gdf = [.multiPolygon, .polygon] →
      (write_geodatabase gdf fp ln false).1.geometry = gdf.geometry.map upcastOne ∧
      (write_geodatabase gdf fp ln false).1.geometry ≠ gdf.geometry) := by
  constructor
  · rintro ⟨f, hf, htf⟩
    have hcond : GeomType.polygon ∈ geomTypes gdf ∨
        GeomType.multiPolygon ∈ geomTypes gdf := by
      rcases htf with h | h
      · exact Or.inl ((mem_geomTypes gdf _).mpr ⟨f, hf, h⟩)
      · exact Or.inr ((mem_geomTypes gdf _).mpr ⟨f, hf, h⟩)
    have hw : (write_geodatabase gdf fp ln true).1.geometry =
        gdf.geometry.map centroid := by
      unfold write_geodatabase
      rw [if_pos rfl, if_pos hcond]
    refine ⟨hw, fun hunch => ?_⟩
    rw [hw] at hunch
    have hfix := map_eq_self_mem centroid gdf.geometry hunch f hf
    have hgt := congrArg geomType hfix
    rcases htf with h | h <;> rw [h] at hgt <;>
      simp [centroid, geomType] at hgt
  · intro heq
    have hlen : (geomTypes gdf).length > 1 := by
      rw [heq]
      decide
    have hw : (write_geodatabase gdf fp ln false).1.geometry =
        gdf.geometry.map upcastOne := by
      unfold write_geodatabase
      simp only [Bool.false_eq_true, if_false, if_pos hlen, if_pos heq]
    refine ⟨hw, fun hunch => ?_⟩
    have hpolymem : GeomType.polygon ∈ geomTypes gdf := by
      rw [heq]
      exact List.mem_cons_of_mem _ (List.mem_cons_self _ _)
    rcases (mem_geomTypes gdf _).mp hpolymem with ⟨f, hf, htf⟩
    rcases eq_polygon_of_geomType htf with ⟨d, rfl⟩
    rw [hw] at hunch
    have hfix := map_eq_self_mem upcastOne gdf.geometry hunch _ hf
    simp [upcastOne] at hfix

/-- C10 witness: a frame with one Polygon and one MultiPolygon is
changed by both code paths: centroids under `polygons_as_points`, and
the upcast otherwise. -/
theorem C10_witness :
    (∃ f ∈ ([Geometry.polygon {(0, 0)}, Geometry.multiPolygon [{(1, 1)}]] : List Geometry),
      geomType f = .polygon ∨ geomType f = .multiPolygon) ∧
    geomTypes ⟨[Geometry.polygon {(0, 0)}, Geometry.multiPolygon [{(1, 1)}]]⟩ =
      [.multiPolygon, .polygon] ∧
    ((write_geodatabase ⟨[Geometry.polygon {(0, 0)}, Geometry.multiPolygon [{(1, 1)}]]⟩
        "out.gdb" "watersheds" true).1.geometry =
      ([Geometry.polygon {(0, 0)}, Geometry.multiPolygon [{(1, 1)}]] : List Geometry).map centroid ∧
     (write_geodatabase ⟨[Geometry.polygon {(0, 0)}, Geometry.multiPolygon [{(1, 1)}]]⟩
        "out.gdb" "watersheds" true).1.geometry ≠
      [Geometry.polygon {(0, 0)}, Geometry.multiPolygon [{(1, 1)}]]) ∧
    ((write_geodatabase ⟨[Geometry.polygon {(0, 0)}, Geometry.multiPolygon [{(1, 1)}]]⟩
        "out.gdb" "watersheds" false).1.geometry =
      ([Geometry.polygon {(0, 0)}, Geometry.multiPolygon [{(1, 1)}]] : List Geometry).map upcastOne ∧
     (write_geodatabase ⟨[Geometry.polygon {(0, 0)}, Geometry.multiPolygon [{(1, 1)}]]⟩
        "out.gdb" "watersheds" false).1.geometry ≠
      [Geometry.polygon {(0, 0)}, Geometry.multiPolygon [{(1, 1)}]]) :=
  have hex : ∃ f ∈ ([Geometry.polygon {(0, 0)},
      Geometry.multiPolygon [{(1, 1)}]] : List Geometry),
      geomType f = .polygon ∨ geomType f = .multiPolygon :=
    ⟨Geometry.polygon {(0, 0)}, List.mem_cons_self _ _, Or.inl rfl⟩
  have hty : geomTypes ⟨[Geometry.polygon {(0, 0)},
      Geometry.multiPolygon [{(1, 1)}]]⟩ = [.multiPolygon, .polygon] := by decide
  ⟨hex, hty,
   (C10_write_geodatabase_mutates
     ⟨[Geometry.polygon {(0, 0)}, Geometry.multiPolygon [{(1, 1)}]]⟩
     "out.gdb" "watersheds").1 hex,
   (C10_write_geodatabase_mutates
     ⟨[Geometry.polygon {(0, 0)}, Geometry.multiPolygon [{(1, 1)}]]⟩
     "out.gdb" "watersheds").2 hty⟩
